import Mathlib

/-!
# Verification of the `netlink-packet-connector` wire codec

Shallow embedding of `src/protocol.rs`: the `ConnectorMessage` type, its
`NetlinkSerializable` implementation (`message_type`, `buffer_len`,
`serialize`) and its `NetlinkDeserializable` implementation (`deserialize`).

Modelling conventions:
* bytes are `Nat` (a well-formed byte buffer has all entries `< 256`);
* `NativeEndian` is modelled as little-endian, the byte order of the
  platforms the crate targets; every claim proved here is independent of
  which endianness is chosen, as long as reads and writes agree;
* Rust's `u32`/`u16` casts (`as u16`) become explicit `% 2 ^ w` operations;
* a Rust panic (out-of-bounds slice index, `copy_from_slice` length
  mismatch) is modelled by the `Option` monad: `none` is the panic, and
  a normally-completing call returns `some`.
-/

/-- The little-endian byte image of a `u16` value, as written by
`NativeEndian::write_u16` (which takes an already-truncated `u16`). -/
def u16LE (v : Nat) : List Nat :=
  [v % 256, v / 256 % 256]

/-- The little-endian byte image of a `u32` value, as written by
`NativeEndian::write_u32`. -/
def u32LE (v : Nat) : List Nat :=
  [v % 256, v / 256 % 256, v / 65536 % 256, v / 16777216 % 256]

/-- Overwrite `w.length` bytes of `buffer` starting at offset `off`.
This models `buffer[off..off + w.length].copy_from_slice(w)` (and the
`write_u16`/`write_u32` calls of the `byteorder` crate, which do the same
through a mutable sub-slice): the slice operation panics — `none` — when
the range `off..off + w.length` does not fit inside the buffer. -/
def setRange (buffer : List Nat) (off : Nat) (w : List Nat) : Option (List Nat) :=
  if off + w.length ≤ buffer.length then
    some (buffer.take off ++ w ++ buffer.drop (off + w.length))
  else
    none

/-- `NativeEndian::write_u32(&mut buffer[off..off+4], v)`. -/
def write_u32 (buffer : List Nat) (off : Nat) (v : Nat) : Option (List Nat) :=
  setRange buffer off (u32LE v)

/-- `NativeEndian::write_u16(&mut buffer[off..off+2], v)`. -/
def write_u16 (buffer : List Nat) (off : Nat) (v : Nat) : Option (List Nat) :=
  setRange buffer off (u16LE v)

/-- `NativeEndian::read_u32(&payload[off..off+4])`: panics (`none`) when the
slice `off..off+4` is out of bounds, otherwise combines the four bytes in
little-endian order. -/
def read_u32 (payload : List Nat) (off : Nat) : Option Nat :=
  if off + 4 ≤ payload.length then
    some (payload.getD off 0 + payload.getD (off + 1) 0 * 256 +
      payload.getD (off + 2) 0 * 65536 + payload.getD (off + 3) 0 * 16777216)
  else
    none

/-- `NativeEndian::read_u16(&payload[off..off+2])`. -/
def read_u16 (payload : List Nat) (off : Nat) : Option Nat :=
  if off + 2 ≤ payload.length then
    some (payload.getD off 0 + payload.getD (off + 1) 0 * 256)
  else
    none

/-- `payload[off..].to_vec()`: panics (`none`) when `off` exceeds the buffer
length, otherwise copies the tail of the buffer. -/
def tail_from (payload : List Nat) (off : Nat) : Option (List Nat) :=
  if off ≤ payload.length then some (payload.drop off) else none

/-- The fixed netlink header handed to `NetlinkDeserializable::deserialize`
by the outer framing layer (`netlink_packet_core::NetlinkHeader`). The
codec receives it but never reads it. -/
structure NetlinkHeader where
  length : Nat
  message_type : Nat
  flags : Nat
  sequence_number : Nat
  port_number : Nat
deriving DecidableEq

/-- Identity of a connecting process (struct `ConnectorId`). -/
structure ConnectorId where
  idx : Nat
  value : Nat
deriving DecidableEq

/-- The single message type of the netlink connector protocol
(struct `ConnectorMessage`). -/
structure ConnectorMessage where
  id : ConnectorId
  seq : Nat
  ack : Nat
  flags : Nat
  data : List Nat
deriving DecidableEq

/-- `ConnectorMessage::new`. -/
def ConnectorMessage.new (idx value seq ack flags : Nat) (data : List Nat) :
    ConnectorMessage :=
  { id := { idx := idx, value := value }, seq := seq, ack := ack,
    flags := flags, data := data }

/-- The error type of a failed deserialization (struct `DeserializeError`). -/
structure DeserializeError where
  msg : String
deriving DecidableEq

deriving instance DecidableEq for Except

/-- Well-formedness of a message value: every field fits its Rust type
(`u32` for idx/value/seq/ack, `u16` for flags, `Vec<u8>` for data). -/
def ConnectorMessage.wf (m : ConnectorMessage) : Prop :=
  m.id.idx < 4294967296 ∧ m.id.value < 4294967296 ∧ m.seq < 4294967296 ∧
    m.ack < 4294967296 ∧ m.flags < 65536 ∧ ∀ b ∈ m.data, b < 256

instance (m : ConnectorMessage) : Decidable m.wf := by
  unfold ConnectorMessage.wf; infer_instance

/-- `<ConnectorMessage as NetlinkDeserializable>::deserialize`. The header
argument is bound (`_header`) but never used by the Rust code. -/
def ConnectorMessage.deserialize (_header : NetlinkHeader) (payload : List Nat) :
    Option (Except DeserializeError ConnectorMessage) := do
  let idx ← read_u32 payload 0
  let value ← read_u32 payload 4
  let seq ← read_u32 payload 8
  let ack ← read_u32 payload 12
  let len ← read_u16 payload 16
  let flags ← read_u16 payload 18
  let data ← tail_from payload 20
  if data.length % 65536 ≠ len then
    some (Except.error { msg := "Invalid data length" })
  else
    some (Except.ok
      { id := { idx := idx, value := value }, seq := seq, ack := ack,
        flags := flags, data := data })

/-- `<ConnectorMessage as NetlinkSerializable>::message_type`. -/
def ConnectorMessage.message_type (_self : ConnectorMessage) : Nat :=
  0

/-- `<ConnectorMessage as NetlinkSerializable>::buffer_len`. -/
def ConnectorMessage.buffer_len (self : ConnectorMessage) : Nat :=
  20 + self.data.length

/-- `<ConnectorMessage as NetlinkSerializable>::serialize`: six fixed-field
writes followed by `buffer[20..].copy_from_slice(&self.data)`. The final
copy panics (`none`) unless the tail `buffer[20..]` exists and has exactly
the data's length; `self.data.len() as u16` becomes `% 65536`. -/
def ConnectorMessage.serialize (self : ConnectorMessage) (buffer : List Nat) :
    Option (List Nat) := do
  let b ← write_u32 buffer 0 self.id.idx
  let b ← write_u32 b 4 self.id.value
  let b ← write_u32 b 8 self.seq
  let b ← write_u32 b 12 self.ack
  let b ← write_u16 b 16 (self.data.length % 65536)
  let b ← write_u16 b 18 self.flags
  if 20 ≤ b.length then
    if b.length - 20 = self.data.length then
      some (b.take 20 ++ self.data)
    else
      none
  else
    none

/-! ## Basic facts about the byte-level primitives -/

@[simp] theorem u32LE_length (v : Nat) : (u32LE v).length = 4 := rfl

@[simp] theorem u16LE_length (v : Nat) : (u16LE v).length = 2 := rfl

theorem setRange_length {buffer : List Nat} {off : Nat} {w out : List Nat}
    (h : setRange buffer off w = some out) : out.length = buffer.length := by
  unfold setRange at h
  split at h
  · cases h
    simp only [List.length_append, List.length_take, List.length_drop]
    omega
  · exact Option.noConfusion h

theorem setRange_split (pre post w : List Nat) {off : Nat}
    (hoff : pre.length = off) (hw : w.length ≤ post.length) :
    setRange (pre ++ post) off w = some (pre ++ (w ++ post.drop w.length)) := by
  subst hoff
  unfold setRange
  rw [if_pos (by simp only [List.length_append]; omega)]
  rw [List.take_left, List.drop_append]
  simp [List.append_assoc]

/-- The 20 header bytes that `serialize` lays down in front of the data. -/
def headerBytes (m : ConnectorMessage) : List Nat :=
  u32LE m.id.idx ++ (u32LE m.id.value ++ (u32LE m.seq ++ (u32LE m.ack ++
    (u16LE (m.data.length % 65536) ++ u16LE m.flags))))

@[simp] theorem headerBytes_length (m : ConnectorMessage) :
    (headerBytes m).length = 20 := by
  simp [headerBytes]

/-- On a buffer of exactly `buffer_len` bytes, `serialize` completes and
produces the header followed by the data, regardless of the buffer's
initial contents. -/
theorem serialize_eq (m : ConnectorMessage) (buffer : List Nat)
    (hlen : buffer.length = 20 + m.data.length) :
    m.serialize buffer = some (headerBytes m ++ m.data) := by
  have h1 : write_u32 buffer 0 m.id.idx
      = some (u32LE m.id.idx ++ buffer.drop 4) := by
    simpa [write_u32] using
      setRange_split [] buffer (u32LE m.id.idx) rfl
        (by simp only [u32LE_length]; omega)
  have h2 : write_u32 (u32LE m.id.idx ++ buffer.drop 4) 4 m.id.value
      = some (u32LE m.id.idx ++ (u32LE m.id.value ++ buffer.drop 8)) := by
    simpa [write_u32, List.drop_drop] using
      setRange_split (u32LE m.id.idx) (buffer.drop 4) (u32LE m.id.value)
        (by simp) (by simp only [u32LE_length, List.length_drop]; omega)
  have h3 : write_u32 (u32LE m.id.idx ++ (u32LE m.id.value ++ buffer.drop 8)) 8 m.seq
      = some (u32LE m.id.idx ++ (u32LE m.id.value ++ (u32LE m.seq ++ buffer.drop 12))) := by
    simpa [write_u32, List.drop_drop, List.append_assoc] using
      setRange_split (u32LE m.id.idx ++ u32LE m.id.value) (buffer.drop 8) (u32LE m.seq)
        (by simp) (by simp only [u32LE_length, List.length_drop]; omega)
  have h4 : write_u32 (u32LE m.id.idx ++ (u32LE m.id.value ++ (u32LE m.seq ++
        buffer.drop 12))) 12 m.ack
      = some (u32LE m.id.idx ++ (u32LE m.id.value ++ (u32LE m.seq ++ (u32LE m.ack ++
        buffer.drop 16)))) := by
    simpa [write_u32, List.drop_drop, List.append_assoc] using
      setRange_split (u32LE m.id.idx ++ u32LE m.id.value ++ u32LE m.seq)
        (buffer.drop 12) (u32LE m.ack)
        (by simp) (by simp only [u32LE_length, List.length_drop]; omega)
  have h5 : write_u16 (u32LE m.id.idx ++ (u32LE m.id.value ++ (u32LE m.seq ++
        (u32LE m.ack ++ buffer.drop 16)))) 16 (m.data.length % 65536)
      = some (u32LE m.id.idx ++ (u32LE m.id.value ++ (u32LE m.seq ++ (u32LE m.ack ++
        (u16LE (m.data.length % 65536) ++ buffer.drop 18))))) := by
    simpa [write_u16, List.drop_drop, List.append_assoc] using
      setRange_split (u32LE m.id.idx ++ u32LE m.id.value ++ u32LE m.seq ++ u32LE m.ack)
        (buffer.drop 16) (u16LE (m.data.length % 65536))
        (by simp) (by simp only [u16LE_length, List.length_drop]; omega)
  have h6 : write_u16 (u32LE m.id.idx ++ (u32LE m.id.value ++ (u32LE m.seq ++
        (u32LE m.ack ++ (u16LE (m.data.length % 65536) ++ buffer.drop 18))))) 18 m.flags
      = some (u32LE m.id.idx ++ (u32LE m.id.value ++ (u32LE m.seq ++ (u32LE m.ack ++
        (u16LE (m.data.length % 65536) ++ (u16LE m.flags ++ buffer.drop 20)))))) := by
    simpa [write_u16, List.drop_drop, List.append_assoc] using
      setRange_split
        (u32LE m.id.idx ++ u32LE m.id.value ++ u32LE m.seq ++ u32LE m.ack ++
          u16LE (m.data.length % 65536))
        (buffer.drop 18) (u16LE m.flags)
        (by simp) (by simp only [u16LE_length, List.length_drop]; omega)
  have hb : (u32LE m.id.idx ++ (u32LE m.id.value ++ (u32LE m.seq ++ (u32LE m.ack ++
      (u16LE (m.data.length % 65536) ++ (u16LE m.flags ++ buffer.drop 20)))))).length
      = 20 + m.data.length := by
    simp only [List.length_append, u32LE_length, u16LE_length, List.length_drop, hlen]
    omega
  have htake : (u32LE m.id.idx ++ (u32LE m.id.value ++ (u32LE m.seq ++ (u32LE m.ack ++
      (u16LE (m.data.length % 65536) ++ (u16LE m.flags ++ buffer.drop 20)))))).take 20
      = headerBytes m := by
    simp [headerBytes, List.take_append_eq_append_take, List.take_of_length_le]
  simp only [ConnectorMessage.serialize, Option.bind_eq_bind, h1, Option.some_bind,
    h2, h3, h4, h5, h6]
  rw [if_pos (by rw [hb]; omega), if_pos (by rw [hb]; omega), htake]

/-- `serialize` can only complete normally on a buffer of exactly
`20 + data.length` bytes. -/
theorem serialize_some_length {m : ConnectorMessage} {buffer out : List Nat}
    (h : m.serialize buffer = some out) : buffer.length = 20 + m.data.length := by
  simp only [ConnectorMessage.serialize, Option.bind_eq_bind, Option.bind_eq_some] at h
  obtain ⟨b1, h1, b2, h2, b3, h3, b4, h4, b5, h5, b6, h6, hfin⟩ := h
  have e1 := setRange_length h1
  have e2 := setRange_length h2
  have e3 := setRange_length h3
  have e4 := setRange_length h4
  have e5 := setRange_length h5
  have e6 := setRange_length h6
  split at hfin
  · split at hfin
    · omega
    · exact Option.noConfusion hfin
  · exact Option.noConfusion hfin

/-- A payload shorter than the 20-byte fixed header makes `deserialize`
fault (an out-of-bounds slice, i.e. `none`): there is no explicit
minimum-length check. -/
theorem deserialize_of_short (h : NetlinkHeader) (payload : List Nat)
    (hlt : payload.length < 20) :
    ConnectorMessage.deserialize h payload = none := by
  have h18 : read_u16 payload 18 = none := by
    unfold read_u16
    rw [if_neg (by omega)]
  simp [ConnectorMessage.deserialize, h18]

/-- Full characterization of `deserialize` on a payload that covers the
fixed header: every fixed field is read at its offset, and the result is
the length-mismatch error or a fully populated message according to the
`data.len() as u16 != len` test. -/
theorem deserialize_of_ge (h : NetlinkHeader) (payload : List Nat)
    (h20 : 20 ≤ payload.length) :
    ConnectorMessage.deserialize h payload =
      if (payload.length - 20) % 65536 ≠ payload.getD 16 0 + payload.getD 17 0 * 256 then
        some (Except.error { msg := "Invalid data length" })
      else
        some (Except.ok
          { id := { idx := payload.getD 0 0 + payload.getD 1 0 * 256 +
                      payload.getD 2 0 * 65536 + payload.getD 3 0 * 16777216,
                    value := payload.getD 4 0 + payload.getD 5 0 * 256 +
                      payload.getD 6 0 * 65536 + payload.getD 7 0 * 16777216 },
            seq := payload.getD 8 0 + payload.getD 9 0 * 256 +
              payload.getD 10 0 * 65536 + payload.getD 11 0 * 16777216,
            ack := payload.getD 12 0 + payload.getD 13 0 * 256 +
              payload.getD 14 0 * 65536 + payload.getD 15 0 * 16777216,
            flags := payload.getD 18 0 + payload.getD 19 0 * 256,
            data := payload.drop 20 }) := by
  have c4 : 4 ≤ payload.length := by omega
  have c8 : 8 ≤ payload.length := by omega
  have c12 : 12 ≤ payload.length := by omega
  have c16 : 16 ≤ payload.length := by omega
  have c18 : 18 ≤ payload.length := by omega
  simp [ConnectorMessage.deserialize, read_u32, read_u16, tail_from,
    c4, c8, c12, c16, c18, h20]

/-- Decoding the exact bytes laid down by `serialize` recovers the message,
for any message whose fields fit their Rust types. -/
theorem deserialize_headerBytes (h : NetlinkHeader) (m : ConnectorMessage)
    (hm : m.wf) :
    ConnectorMessage.deserialize h (headerBytes m ++ m.data) = some (Except.ok m) := by
  obtain ⟨⟨idx, value⟩, seq, ack, flags, data⟩ := m
  simp only [ConnectorMessage.wf] at hm
  obtain ⟨hidx, hvalue, hseq, hack, hflags, -⟩ := hm
  rw [deserialize_of_ge h _ (by simp only [List.length_append, headerBytes_length]; omega)]
  simp only [headerBytes, u32LE, u16LE, List.cons_append, List.nil_append,
    List.getD_cons_succ, List.getD_cons_zero, List.length_cons, List.length_append,
    List.drop_succ_cons, List.drop_zero]
  rw [if_neg (by omega)]
  simp only [Option.some.injEq, Except.ok.injEq, ConnectorMessage.mk.injEq,
    ConnectorId.mk.injEq]
  refine ⟨⟨?_, ?_⟩, ?_, ?_, ?_, trivial⟩ <;> omega

/-- A concrete netlink header for instantiating header-polymorphic facts. -/
def hdr0 : NetlinkHeader :=
  { length := 0, message_type := 0, flags := 0, sequence_number := 0, port_number := 0 }

/-- `deserialize` never inspects the netlink header it is handed. -/
theorem deserialize_header_irrel (h h' : NetlinkHeader) (payload : List Nat) :
    ConnectorMessage.deserialize h payload = ConnectorMessage.deserialize h' payload := rfl

/-- The 16-bit field at offset 16 of a serialized message is the data
length reduced modulo `2 ^ 16`. -/
theorem read_u16_headerBytes_len (m : ConnectorMessage) :
    read_u16 (headerBytes m ++ m.data) 16 = some (m.data.length % 65536) := by
  unfold read_u16
  rw [if_pos (by simp only [List.length_append, headerBytes_length]; omega)]
  simp only [headerBytes, u32LE, u16LE, List.cons_append, List.nil_append,
    List.getD_cons_succ, List.getD_cons_zero, Option.some.injEq]
  omega

theorem getD_replicate_zero (n i : Nat) :
    (List.replicate n (0 : Nat)).getD i 0 = 0 := by
  simp

/-! ## The claims -/

/-- C1: for every (well-typed) `ConnectorMessage` `m`, serializing `m` into
a buffer of `buffer_len()` bytes completes, and deserializing the resulting
bytes succeeds and returns a message equal to `m` — idx, value, seq, ack,
flags and data are all preserved exactly. -/
theorem C1_roundtrip (m : ConnectorMessage) (h : NetlinkHeader) (buffer : List Nat)
    (hm : m.wf) (hbuf : buffer.length = m.buffer_len) :
    ∃ out, m.serialize buffer = some out ∧
      ConnectorMessage.deserialize h out = some (Except.ok m) := by
  refine ⟨headerBytes m ++ m.data, ?_, deserialize_headerBytes h m hm⟩
  exact serialize_eq m buffer (by rw [ConnectorMessage.buffer_len] at hbuf; exact hbuf)

/-- Witness for C1 at the concrete message `{idx=1, value=2, seq=3, ack=4,
flags=5, data=[0xAA, 0xBB]}` and a fresh 22-byte buffer. -/
theorem C1_roundtrip_witness :
    (ConnectorMessage.new 1 2 3 4 5 [170, 187]).wf ∧
    (List.replicate 22 (0 : Nat)).length = (ConnectorMessage.new 1 2 3 4 5 [170, 187]).buffer_len ∧
    ∃ out, (ConnectorMessage.new 1 2 3 4 5 [170, 187]).serialize (List.replicate 22 0) = some out ∧
      ConnectorMessage.deserialize hdr0 out =
        some (Except.ok (ConnectorMessage.new 1 2 3 4 5 [170, 187])) :=
  ⟨by decide, by decide,
    C1_roundtrip (ConnectorMessage.new 1 2 3 4 5 [170, 187]) hdr0
      (List.replicate 22 0) (by decide) (by decide)⟩

/-- C2 (amended): every buffer produced by `serialize` has length exactly
`20 + data.length`, and the 16-bit field at offset 16 equals
`data.length % 2^16` — which is `data.length` itself exactly when
`data.length < 65536`; longer data lengths are silently truncated by the
`as u16` cast. -/
theorem C2_length_invariant (m : ConnectorMessage) (buffer out : List Nat)
    (hout : m.serialize buffer = some out) :
    out.length = 20 + m.data.length ∧
      read_u16 out 16 = some (m.data.length % 65536) := by
  have hlen := serialize_some_length hout
  rw [serialize_eq m buffer hlen] at hout
  cases hout
  refine ⟨by simp, read_u16_headerBytes_len m⟩

/-- Witness for C2 at the concrete message `{idx=1, value=2, seq=3, ack=4,
flags=5, data=[0xAA, 0xBB]}`. -/
theorem C2_length_invariant_witness :
    (ConnectorMessage.new 1 2 3 4 5 [170, 187]).serialize (List.replicate 22 0) =
      some [1, 0, 0, 0, 2, 0, 0, 0, 3, 0, 0, 0, 4, 0, 0, 0, 2, 0, 5, 0, 170, 187] ∧
    ([1, 0, 0, 0, 2, 0, 0, 0, 3, 0, 0, 0, 4, 0, 0, 0, 2, 0, 5, 0, 170, 187] : List Nat).length
        = 20 + (ConnectorMessage.new 1 2 3 4 5 [170, 187]).data.length ∧
    read_u16 [1, 0, 0, 0, 2, 0, 0, 0, 3, 0, 0, 0, 4, 0, 0, 0, 2, 0, 5, 0, 170, 187] 16 =
      some ((ConnectorMessage.new 1 2 3 4 5 [170, 187]).data.length % 65536) :=
  ⟨by decide,
    C2_length_invariant (ConnectorMessage.new 1 2 3 4 5 [170, 187])
      (List.replicate 22 0) _ (by decide)⟩

/-- The message whose data is 65536 zero bytes: its data length does not
fit in the 16-bit length field. -/
def bigMsg : ConnectorMessage :=
  ConnectorMessage.new 0 0 0 0 0 (List.replicate 65536 0)

/-- C2 counterexample: for the message with 65536 data bytes, `serialize`
completes on a `buffer_len()`-sized buffer but the 16-bit field at offset
16 reads back as `0`, not as the data length `65536` — the claim's
"for all data lengths, with no truncation" is false. -/
theorem C2_counterexample :
    bigMsg.data.length = 65536 ∧
    bigMsg.buffer_len = 65556 ∧
    ∃ out, bigMsg.serialize (List.replicate 65556 0) = some out ∧
      read_u16 out 16 = some 0 ∧
      read_u16 out 16 ≠ some bigMsg.data.length := by
  have hd : bigMsg.data.length = 65536 := by
    simp only [bigMsg, ConnectorMessage.new, List.length_replicate]
  have hbl : bigMsg.buffer_len = 65556 := by
    rw [ConnectorMessage.buffer_len, hd]
  have h := read_u16_headerBytes_len bigMsg
  rw [hd] at h
  have h0 : read_u16 (headerBytes bigMsg ++ bigMsg.data) 16 = some 0 := by
    rw [h]
  refine ⟨hd, hbl, headerBytes bigMsg ++ bigMsg.data, ?_, h0, ?_⟩
  · exact serialize_eq bigMsg (List.replicate 65556 0)
      (by rw [List.length_replicate, hd])
  · rw [h0, hd]
    decide

/-- C3 (amended): for a buffer covering the 20-byte header whose 16-bit
length field decodes to `L`, `deserialize` returns the length-mismatch
error exactly when the trailing byte count is not congruent to `L`
modulo `2^16`; a trailing count that differs from `L` by a nonzero
multiple of 65536 is (incorrectly, for the wire contract) accepted,
because the comparison truncates the count with `as u16`. -/
theorem C3_reject_length_mismatch (h : NetlinkHeader) (payload : List Nat) (L : Nat)
    (h20 : 20 ≤ payload.length)
    (hL : read_u16 payload 16 = some L) :
    (ConnectorMessage.deserialize h payload =
        some (Except.error { msg := "Invalid data length" })) ↔
      (payload.length - 20) % 65536 ≠ L := by
  have hL' : payload.getD 16 0 + payload.getD 17 0 * 256 = L := by
    unfold read_u16 at hL
    rw [if_pos (by omega)] at hL
    exact Option.some.inj hL
  rw [deserialize_of_ge h payload h20, hL']
  by_cases hc : (payload.length - 20) % 65536 ≠ L
  · rw [if_pos hc]
    simp [hc]
  · rw [if_neg hc]
    simp [hc]

/-- Witness for C3: a 21-byte all-zero buffer declares `len = 0` but
carries one trailing byte, so decoding fails with the length error. -/
theorem C3_reject_length_mismatch_witness :
    20 ≤ (List.replicate 21 (0 : Nat)).length ∧
    read_u16 (List.replicate 21 (0 : Nat)) 16 = some 0 ∧
    (((List.replicate 21 (0 : Nat)).length - 20) % 65536 ≠ 0) ∧
    ConnectorMessage.deserialize hdr0 (List.replicate 21 0) =
      some (Except.error { msg := "Invalid data length" }) :=
  ⟨by decide, by decide, by decide,
    (C3_reject_length_mismatch hdr0 (List.replicate 21 0) 0 (by decide)
      (by decide)).mpr (by decide)⟩

/-- C3 counterexample: an all-zero buffer of 65556 bytes declares `len = 0`
while carrying 65536 trailing bytes — the trailing count differs from the
declared length, yet `deserialize` does not return an error: it accepts
the buffer and returns a fully populated message, because the comparison
`data.len() as u16 != len` truncates 65536 to 0. -/
theorem C3_counterexample :
    read_u16 (List.replicate 65556 (0 : Nat)) 16 = some 0 ∧
    (List.replicate 65556 (0 : Nat)).length - 20 = 65536 ∧
    ConnectorMessage.deserialize hdr0 (List.replicate 65556 0) =
      some (Except.ok bigMsg) := by
  refine ⟨?_, ?_, ?_⟩
  · unfold read_u16
    rw [if_pos (by rw [List.length_replicate]; omega)]
    rw [getD_replicate_zero, getD_replicate_zero]
  · rw [List.length_replicate]
  · rw [deserialize_of_ge hdr0 _ (by rw [List.length_replicate]; omega)]
    simp only [List.length_replicate, getD_replicate_zero, List.drop_replicate]
    rw [if_neg (by omega)]
    rw [show (65556 : Nat) - 20 = 65536 from by omega]
    simp only [bigMsg, ConnectorMessage.new, Option.some.injEq, Except.ok.injEq,
      ConnectorMessage.mk.injEq, ConnectorId.mk.injEq]

/-- C4: on any buffer covering the 20-byte header, `deserialize` fails
exactly when the `data.len() as u16 != len` check fails; the only error
ever produced is `DeserializeError("Invalid data length")`; and whenever
the check passes, a message is returned — the idx, value, seq, ack and
flags fields are never validated, any bit pattern being accepted. -/
theorem C4_single_error_kind (h : NetlinkHeader) (payload : List Nat)
    (h20 : 20 ≤ payload.length) :
    ((∃ e, ConnectorMessage.deserialize h payload = some (Except.error e)) ↔
      (payload.length - 20) % 65536 ≠ payload.getD 16 0 + payload.getD 17 0 * 256) ∧
    (∀ e, ConnectorMessage.deserialize h payload = some (Except.error e) →
      e = { msg := "Invalid data length" }) ∧
    ((payload.length - 20) % 65536 = payload.getD 16 0 + payload.getD 17 0 * 256 →
      ∃ m, ConnectorMessage.deserialize h payload = some (Except.ok m)) := by
  rw [deserialize_of_ge h payload h20]
  by_cases hc : (payload.length - 20) % 65536 ≠ payload.getD 16 0 + payload.getD 17 0 * 256
  · rw [if_pos hc]
    refine ⟨⟨fun _ => hc, fun _ => ⟨_, rfl⟩⟩, fun e he => ?_, fun heq => absurd heq hc⟩
    exact (Except.error.inj (Option.some.inj he)).symm
  · rw [if_neg hc]
    refine ⟨⟨fun he => ?_, fun hne => absurd hne hc⟩, fun e he => ?_, fun _ => ⟨_, rfl⟩⟩
    · obtain ⟨e, he⟩ := he
      simp at he
    · simp at he

/-- Witness for C4 at the all-zero 20-byte buffer. -/
theorem C4_single_error_kind_witness :
    20 ≤ (List.replicate 20 (0 : Nat)).length ∧
    (((∃ e, ConnectorMessage.deserialize hdr0 (List.replicate 20 0) = some (Except.error e)) ↔
      ((List.replicate 20 (0 : Nat)).length - 20) % 65536 ≠
        (List.replicate 20 (0 : Nat)).getD 16 0 + (List.replicate 20 (0 : Nat)).getD 17 0 * 256) ∧
    (∀ e, ConnectorMessage.deserialize hdr0 (List.replicate 20 0) = some (Except.error e) →
      e = { msg := "Invalid data length" }) ∧
    (((List.replicate 20 (0 : Nat)).length - 20) % 65536 =
        (List.replicate 20 (0 : Nat)).getD 16 0 + (List.replicate 20 (0 : Nat)).getD 17 0 * 256 →
      ∃ m, ConnectorMessage.deserialize hdr0 (List.replicate 20 0) = some (Except.ok m))) :=
  ⟨by decide, C4_single_error_kind hdr0 (List.replicate 20 0) (by decide)⟩

/-- C5: a payload strictly shorter than the 20-byte fixed header is never
answered with a graceful `DeserializeError`: the fixed-offset reads go out
of bounds (the fault branch, `none`), because `deserialize` performs no
minimum-length check. -/
theorem C5_missing_bounds_check (h : NetlinkHeader) (payload : List Nat)
    (hlt : payload.length < 20) :
    ConnectorMessage.deserialize h payload = none :=
  deserialize_of_short h payload hlt

/-- Witness for C5 at a 19-byte buffer. -/
theorem C5_missing_bounds_check_witness :
    (List.replicate 19 (0 : Nat)).length < 20 ∧
    ConnectorMessage.deserialize hdr0 (List.replicate 19 0) = none :=
  ⟨by decide, C5_missing_bounds_check hdr0 (List.replicate 19 0) (by decide)⟩

/-- C6: `buffer_len()` returns exactly `20 + data.length` for every
message. -/
theorem C6_buffer_len_exact (m : ConnectorMessage) :
    m.buffer_len = 20 + m.data.length := rfl

/-- C7: `serialize` completes normally only on a buffer of exactly
`20 + data.length` bytes: on any shorter or longer buffer the slice
operations or the final `copy_from_slice` panic (`none`). -/
theorem C7_serialize_needs_exact_buffer (m : ConnectorMessage) (buffer : List Nat)
    (hne : buffer.length ≠ 20 + m.data.length) :
    m.serialize buffer = none := by
  cases hout : m.serialize buffer with
  | none => rfl
  | some out => exact absurd (serialize_some_length hout) hne

/-- Witness for C7: a 23-byte buffer — one byte larger than needed — still
makes `serialize` panic. -/
theorem C7_serialize_needs_exact_buffer_witness :
    (List.replicate 23 (0 : Nat)).length ≠
      20 + (ConnectorMessage.new 1 2 3 4 5 [170, 187]).data.length ∧
    (ConnectorMessage.new 1 2 3 4 5 [170, 187]).serialize (List.replicate 23 0) = none :=
  ⟨by decide,
    C7_serialize_needs_exact_buffer (ConnectorMessage.new 1 2 3 4 5 [170, 187])
      (List.replicate 23 0) (by decide)⟩

/-- C8: encoding `{idx=1, value=2, seq=3, ack=4, flags=5, data=[0xAA,0xBB]}`
yields a 22-byte buffer whose 16-bit field at offsets 16-17 is 2, whose
16-bit field at offsets 18-19 is 5 and whose bytes at offsets 20-21 are
`[0xAA, 0xBB]`; decoding that buffer returns the original message. -/
theorem C8_concrete_scenario :
    ∃ out, (ConnectorMessage.new 1 2 3 4 5 [170, 187]).serialize (List.replicate 22 0)
        = some out ∧
      out.length = 22 ∧
      read_u16 out 16 = some 2 ∧
      read_u16 out 18 = some 5 ∧
      out.drop 20 = [170, 187] ∧
      ∀ h : NetlinkHeader, ConnectorMessage.deserialize h out =
        some (Except.ok (ConnectorMessage.new 1 2 3 4 5 [170, 187])) := by
  refine ⟨[1, 0, 0, 0, 2, 0, 0, 0, 3, 0, 0, 0, 4, 0, 0, 0, 2, 0, 5, 0, 170, 187],
    by decide, by decide, by decide, by decide, by decide, fun h => ?_⟩
  rw [deserialize_header_irrel h hdr0]
  decide

/-- C9: the result of `deserialize` is a pure function of the payload
alone — the netlink header argument has no influence on the result. -/
theorem C9_header_independent (h1 h2 : NetlinkHeader) (payload : List Nat) :
    ConnectorMessage.deserialize h1 payload = ConnectorMessage.deserialize h2 payload := rfl

/-- C10: `message_type()` returns the fixed discriminator 0 for every
message. -/
theorem C10_message_type_zero (m : ConnectorMessage) :
    m.message_type = 0 := rfl
